import Mathlib

/-!
Shallow embedding of the file-to-text extraction pipeline of the
doc-converter repository (`utils/fileParser.js`, the variant with the
Tesseract OCR integration).

JavaScript strings are modelled as Lean `String` (a wrapper around
`List Char`); the JS string operations used by the code (`trim`, `join`,
`startsWith`, `includes`) are defined below on the character list.  The
whitespace class is the ASCII part of the JS whitespace class, which covers
every string the code manipulates.

The asynchronous effects of one extraction call (which decoder runs, which
progress events the logger forwards to a caller-supplied sink, the
`console.warn` advisory, `worker.terminate`) are modelled as an event trace
returned next to the `Except`-modelled promise outcome.
-/

namespace DocConverter

/-- ASCII fragment of the JavaScript whitespace class used by `trim`. -/
def isWsC (c : Char) : Bool :=
  c == ' ' || c == '\t' || c == '\n' || c == '\r'

/-- The JS `String.prototype.trim` on the character list: drop whitespace from the
front, then from the back. -/
def trimCs (l : List Char) : List Char :=
  ((l.dropWhile isWsC).reverse.dropWhile isWsC).reverse

/-- JavaScript `s.trim()`. -/
def jsTrim (s : String) : String :=
  String.mk (trimCs s.data)

/-- JavaScript `Array.prototype.join(sep)`. -/
def jsJoin (sep : String) : List String → String
  | [] => ""
  | [s] => s
  | s :: rest => s ++ sep ++ jsJoin sep rest

/-- Is the first list a prefix of the second (character comparison)? -/
def isPre : List Char → List Char → Bool
  | [], _ => true
  | _ :: _, [] => false
  | a :: ps, b :: ls => a == b && isPre ps ls

/-- JavaScript `s.startsWith(p)`. -/
def jsStarts (s p : String) : Bool :=
  isPre p.data s.data

/-- Does `needle` occur as a contiguous run inside `hay`? -/
def subOcc (needle : List Char) : List Char → Bool
  | [] => isPre needle []
  | b :: t => isPre needle (b :: t) || subOcc needle t

/-- JavaScript `s.includes(needle)`. -/
def jsIncludes (s needle : String) : Bool :=
  subOcc needle.data s.data

/-- Concatenation of a list of strings (the repeated `+=` of the PDF loop). -/
def strConcat : List String → String
  | [] => ""
  | s :: rest => s ++ strConcat rest

/-! ## Data model -/

/-- Which decoder the dispatcher handed the file to. -/
inductive Decoder
  | pdf
  | docx
  | image
deriving DecidableEq

/-- One message handed to the Tesseract `logger` callback: a `status` string
and an optional `progress` number (`m.progress` may be absent). -/
structure ProgressMsg where
  status : String
  progress : Option Rat
deriving DecidableEq

/-- Observable effects of one extraction call, in order of occurrence. -/
inductive Event
  /-- The dispatcher invoked this decoder on the file. -/
  | invoked (d : Decoder)
  /-- The logger forwarded a progress update to the caller-supplied
  `onProgress` sink, as `onProgress({status, progress})`. -/
  | forwarded (status : String) (progress : Option Rat)
  /-- A `console.warn` advisory for OCR confidence below 60. -/
  | warnLowConfidence
  /-- The step `worker.terminate()` was executed. -/
  | terminated
deriving DecidableEq

/-- What the external libraries would do with this file's bytes:
`createWorker` outcome, the messages the engine feeds to the `logger`
callback, the `worker.recognize` outcome `{text, confidence}`, and the
`worker.terminate` outcome.  Confidence is on the 0-100 scale. -/
structure OcrSpec where
  create : Except String Unit
  messages : List ProgressMsg
  recognize : Except String (String × Int)
  terminate : Except String Unit

/-- An uploaded file: its declared media type plus what each external
decoding library would yield on its bytes. -/
structure JsFile where
  type : String
  pdfDoc : Except String (List (List String))
  docxVal : Except String String
  ocr : OcrSpec

/-! ## PDF decoder (`extractTextFromPDF`) -/

/-- The accumulation loop of `extractTextFromPDF`:
`fullText += pageText + '\n\n'` over pages 1..N in ascending order, where
`pageText = textContent.items.map(item => item.str).join(' ')`. -/
def pdfFullText (pages : List (List String)) : String :=
  pages.foldl (fun acc page => acc ++ jsJoin " " page ++ "\n\n") ""

/-- Source `extractTextFromPDF(file)`: load the document (which may fail), run the
page loop, return `fullText.trim()`. -/
def extractTextFromPDF (doc : Except String (List (List String))) :
    Except String String × List Event :=
  match doc with
  | .error e => (.error e, [.invoked .pdf])
  | .ok pages => (.ok (jsTrim (pdfFullText pages)), [.invoked .pdf])

/-! ## DOCX decoder (`extractTextFromDOCX`) -/

/-- Source `extractTextFromDOCX(file)`: run `mammoth.extractRawText` and return
`result.value` verbatim (no trimming at this layer). -/
def extractTextFromDOCX (val : Except String String) :
    Except String String × List Event :=
  (val, [.invoked .docx])

/-! ## OCR decoder (`extractTextFromImage`) -/

/-- The message thrown when OCR completes with empty/whitespace-only text. -/
def noTextMsg : String :=
  "No text could be recognized in the image. The image may be too blurry, low quality, or may not contain any text."

/-- The message thrown by the catch block when the caught failure message
contains the substring "recognize". -/
def recogFailMsg : String :=
  "Failed to recognize text in image. Please ensure the image contains clear, readable text."

/-- The catch block of `extractTextFromImage`:
`if (error.message && error.message.includes('recognize'))` throw the
recognition-failure message, else throw "OCR processing failed: " plus the
original message. -/
def ocrWrap (msg : String) : String :=
  if jsIncludes msg "recognize" then recogFailMsg
  else "OCR processing failed: " ++ msg

/-- The `logger` callback of single-language `extractTextFromImage`: forward
`{status, progress}` to `onProgress` (when supplied) for status
'recognizing text' (raw `m.progress`), or for the three loading statuses
(`m.progress || 0`); ignore every other status. -/
def fwdSingle (sink : Bool) (m : ProgressMsg) : List Event :=
  if sink then
    if m.status = "recognizing text" then
      [.forwarded m.status m.progress]
    else if m.status = "loading tesseract core" ||
            m.status = "initializing tesseract" ||
            m.status = "loading language traineddata" then
      [.forwarded m.status (some (m.progress.getD 0))]
    else []
  else []

/-- The `logger` callback of `extractTextFromImageMultiLang`: forward every
message as `{status, progress: m.progress || 0}` (no status filtering). -/
def fwdMulti (sink : Bool) (m : ProgressMsg) : List Event :=
  if sink then [.forwarded m.status (some (m.progress.getD 0))] else []

/-- Events emitted by the logger over the engine's message sequence. -/
def emitAll (f : ProgressMsg → List Event) : List ProgressMsg → List Event
  | [] => []
  | m :: rest => f m ++ emitAll f rest

/-- Source `extractTextFromImage(file, onProgress)`.  Here `worker` starts as `null`; if
`createWorker` rejects the catch block rewraps the error and the `finally`
block skips termination (`if (worker)` is false).  After a successful
creation the logger has run over the engine's messages; `recognize` either
rejects (rewrapped), or yields `{text, confidence}`.  Empty/whitespace text
throws `noTextMsg` into the same catch block; confidence below 60 emits a
`console.warn` advisory only; the result is `text.trim()`.  The `finally`
block always runs `worker.terminate()` once, swallowing (logging) any
termination failure. -/
def extractTextFromImage (spec : OcrSpec) (sink : Bool) :
    Except String String × List Event :=
  match spec.create with
  | .error e => (.error (ocrWrap e), [.invoked .image])
  | .ok _ =>
    let progEvs := emitAll (fwdSingle sink) spec.messages
    match spec.recognize with
    | .error e =>
      (.error (ocrWrap e), .invoked .image :: progEvs ++ [.terminated])
    | .ok (text, confidence) =>
      if (jsTrim text).data.length = 0 then
        (.error (ocrWrap noTextMsg), .invoked .image :: progEvs ++ [.terminated])
      else if confidence < 60 then
        (.ok (jsTrim text),
          .invoked .image :: progEvs ++ [.warnLowConfidence, .terminated])
      else
        (.ok (jsTrim text), .invoked .image :: progEvs ++ [.terminated])

/-- Source `extractTextFromImageMultiLang(file, languages, onProgress)`: identical
lifecycle, but the logger forwards every message, the empty-text message is
the generic one, and the catch block always throws
"OCR processing failed: " plus the original message (no substring branch,
and no low-confidence advisory). -/
def extractTextFromImageMultiLang (languages : List String) (spec : OcrSpec)
    (sink : Bool) : Except String String × List Event :=
  let _langString := jsJoin "+" languages
  match spec.create with
  | .error e => (.error ("OCR processing failed: " ++ e), [.invoked .image])
  | .ok _ =>
    let progEvs := emitAll (fwdMulti sink) spec.messages
    match spec.recognize with
    | .error e =>
      (.error ("OCR processing failed: " ++ e),
        .invoked .image :: progEvs ++ [.terminated])
    | .ok (text, _confidence) =>
      if (jsTrim text).data.length = 0 then
        (.error ("OCR processing failed: No text could be recognized in the image."),
          .invoked .image :: progEvs ++ [.terminated])
      else
        (.ok (jsTrim text), .invoked .image :: progEvs ++ [.terminated])

/-! ## Extraction dispatcher (`extractTextFromFile`) -/

/-- The try block of `extractTextFromFile`: route on the declared media type
(exact match for PDF and DOCX, `startsWith('image/')` for OCR), else throw
'Unsupported file type'. -/
def dispatchBody (f : JsFile) (sink : Bool) : Except String String × List Event :=
  if f.type = "application/pdf" then
    extractTextFromPDF f.pdfDoc
  else if f.type = "application/vnd.openxmlformats-officedocument.wordprocessingml.document" then
    extractTextFromDOCX f.docxVal
  else if jsStarts f.type "image/" then
    extractTextFromImage f.ocr sink
  else
    (.error "Unsupported file type", [])

/-- Source `extractTextFromFile(file, onProgress)`: run the try block; any thrown
error is caught and re-thrown as
`Failed to extract text: ${error.message}`. -/
def extractTextFromFile (f : JsFile) (sink : Bool) :
    Except String String × List Event :=
  match dispatchBody f sink with
  | (.ok t, evs) => (.ok t, evs)
  | (.error e, evs) => (.error ("Failed to extract text: " ++ e), evs)

/-! ## Trace projections -/

/-- The decoders invoked during a call, in order. -/
def invokedList : List Event → List Decoder
  | [] => []
  | .invoked d :: rest => d :: invokedList rest
  | .forwarded _ _ :: rest => invokedList rest
  | .warnLowConfidence :: rest => invokedList rest
  | .terminated :: rest => invokedList rest

/-- The statuses forwarded to the progress sink, in order. -/
def fwdStatuses : List Event → List String
  | [] => []
  | .forwarded s _ :: rest => s :: fwdStatuses rest
  | .invoked _ :: rest => fwdStatuses rest
  | .warnLowConfidence :: rest => fwdStatuses rest
  | .terminated :: rest => fwdStatuses rest

/-- How many times `worker.terminate()` executed. -/
def countTerm : List Event → Nat
  | [] => 0
  | .terminated :: rest => countTerm rest + 1
  | _ :: rest => countTerm rest

/-! ## Helper lemmas on strings and trimming -/

/-- The back-trimming half of `trim`. -/
def trimBack (l : List Char) : List Char :=
  (l.reverse.dropWhile isWsC).reverse

theorem trimCs_eq_trimBack (l : List Char) :
    trimCs l = trimBack (l.dropWhile isWsC) := rfl

theorem str_append_empty (s : String) : s ++ "" = s := by
  cases s
  exact congrArg String.mk (List.append_nil _)

theorem str_append_assoc (a b c : String) : a ++ b ++ c = a ++ (b ++ c) := by
  cases a; cases b; cases c
  exact congrArg String.mk (List.append_assoc _ _ _)

theorem dW_dW {α : Type} (p : α → Bool) (l : List α) :
    (l.dropWhile p).dropWhile p = l.dropWhile p := by
  induction l with
  | nil => rfl
  | cons a t ih =>
    by_cases hp : p a
    · rw [List.dropWhile_cons_of_pos hp]; exact ih
    · rw [List.dropWhile_cons_of_neg hp, List.dropWhile_cons_of_neg hp]

theorem dW_all {α : Type} {p : α → Bool} {a : List α}
    (h : ∀ c ∈ a, p c = true) : a.dropWhile p = [] := by
  induction a with
  | nil => rfl
  | cons x t ih =>
    rw [List.dropWhile_cons_of_pos (h x (List.mem_cons_self x t))]
    exact ih fun c hc => h c (List.mem_cons_of_mem x hc)

theorem dW_eq_self_of_append {α : Type} {p : α → Bool} {x y : List α}
    (h : (x ++ y).dropWhile p = x ++ y) : x.dropWhile p = x := by
  cases x with
  | nil => rfl
  | cons a t =>
    by_cases hp : p a
    · exfalso
      rw [List.cons_append, List.dropWhile_cons_of_pos hp] at h
      have hle := (List.dropWhile_suffix (l := t ++ y) p).length_le
      rw [h] at hle
      simp [List.length_cons, List.length_append] at hle
    · exact List.dropWhile_cons_of_neg hp

theorem trimBack_idem (l : List Char) : trimBack (trimBack l) = trimBack l := by
  unfold trimBack
  rw [List.reverse_reverse, dW_dW]

theorem trimBack_append_ws (l w : List Char) (h : ∀ c ∈ w, isWsC c = true) :
    trimBack (l ++ w) = trimBack l := by
  unfold trimBack
  rw [List.reverse_append, List.dropWhile_append_of_pos]
  intro a ha
  exact h a (List.mem_reverse.mp ha)

theorem dW_trimBack {l : List Char} (h : l.dropWhile isWsC = l) :
    (trimBack l).dropWhile isWsC = trimBack l := by
  obtain ⟨pre, hpre⟩ := List.dropWhile_suffix (l := l.reverse) isWsC
  have hl : trimBack l ++ pre.reverse = l := by
    have h2 := congrArg List.reverse hpre
    simpa [trimBack, List.reverse_append] using h2
  exact dW_eq_self_of_append (x := trimBack l) (y := pre.reverse)
    (by rw [hl]; exact h)

theorem trimCs_idem (l : List Char) : trimCs (trimCs l) = trimCs l := by
  rw [trimCs_eq_trimBack, trimCs_eq_trimBack, dW_trimBack (dW_dW isWsC l)]
  exact trimBack_idem _

theorem trimCs_append_ws {l w : List Char} (h : ∀ c ∈ w, isWsC c = true) :
    trimCs (l ++ w) = trimCs l := by
  rw [trimCs_eq_trimBack, trimCs_eq_trimBack, List.dropWhile_append]
  cases hd : l.dropWhile isWsC with
  | nil => simp [dW_all h]
  | cons a t =>
    rw [if_neg (by simp)]
    exact trimBack_append_ws (a :: t) w h

theorem trimCs_all_ws {l : List Char} (h : ∀ c ∈ l, isWsC c = true) :
    trimCs l = [] := by
  rw [trimCs_eq_trimBack, dW_all h]
  rfl

theorem jsTrim_idem (s : String) : jsTrim (jsTrim s) = jsTrim s :=
  congrArg String.mk (trimCs_idem s.data)

theorem jsTrim_append_nn (s : String) : jsTrim (s ++ "\n\n") = jsTrim s := by
  unfold jsTrim
  rw [String.data_append]
  exact congrArg String.mk (trimCs_append_ws (by decide))

theorem str_empty_append (s : String) : "" ++ s = s := by
  cases s; rfl

/-! ## Helper lemmas on event traces -/

theorem invokedList_append (a b : List Event) :
    invokedList (a ++ b) = invokedList a ++ invokedList b := by
  induction a with
  | nil => rfl
  | cons e rest ih => cases e <;> simp [invokedList, ih]

theorem fwdStatuses_append (a b : List Event) :
    fwdStatuses (a ++ b) = fwdStatuses a ++ fwdStatuses b := by
  induction a with
  | nil => rfl
  | cons e rest ih => cases e <;> simp [fwdStatuses, ih]

theorem countTerm_append (a b : List Event) :
    countTerm (a ++ b) = countTerm a + countTerm b := by
  induction a with
  | nil => simp [countTerm]
  | cons e rest ih => cases e <;> (simp [countTerm, ih]; try omega)

theorem invokedList_fwdSingle (s : Bool) (m : ProgressMsg) :
    invokedList (fwdSingle s m) = [] := by
  unfold fwdSingle
  split_ifs <;> rfl

theorem invokedList_fwdMulti (s : Bool) (m : ProgressMsg) :
    invokedList (fwdMulti s m) = [] := by
  unfold fwdMulti
  split_ifs <;> rfl

theorem countTerm_fwdSingle (s : Bool) (m : ProgressMsg) :
    countTerm (fwdSingle s m) = 0 := by
  unfold fwdSingle
  split_ifs <;> rfl

theorem invokedList_emitSingle (s : Bool) (msgs : List ProgressMsg) :
    invokedList (emitAll (fwdSingle s) msgs) = [] := by
  induction msgs with
  | nil => rfl
  | cons m rest ih =>
    rw [emitAll, invokedList_append, invokedList_fwdSingle, ih]
    rfl

theorem invokedList_emitMulti (s : Bool) (msgs : List ProgressMsg) :
    invokedList (emitAll (fwdMulti s) msgs) = [] := by
  induction msgs with
  | nil => rfl
  | cons m rest ih =>
    rw [emitAll, invokedList_append, invokedList_fwdMulti, ih]
    rfl

theorem countTerm_emitSingle (s : Bool) (msgs : List ProgressMsg) :
    countTerm (emitAll (fwdSingle s) msgs) = 0 := by
  induction msgs with
  | nil => rfl
  | cons m rest ih =>
    rw [emitAll, countTerm_append, countTerm_fwdSingle, ih]

/-- The OCR decoder's trace always reports exactly the image decoder. -/
theorem invokedList_image (spec : OcrSpec) (sink : Bool) :
    invokedList (extractTextFromImage spec sink).2 = [.image] := by
  unfold extractTextFromImage
  cases spec.create with
  | error e => rfl
  | ok u =>
    cases spec.recognize with
    | error e =>
      simp [invokedList, invokedList_append, invokedList_emitSingle]
    | ok pr =>
      obtain ⟨text, conf⟩ := pr
      dsimp only
      split_ifs <;>
        simp [invokedList, invokedList_append, invokedList_emitSingle]

/-! ## Helper lemmas on the PDF page loop -/

theorem pdfFold_acc (pages : List (List String)) (acc : String) :
    pages.foldl (fun a page => a ++ jsJoin " " page ++ "\n\n") acc
      = acc ++ strConcat (pages.map fun p => jsJoin " " p ++ "\n\n") := by
  induction pages generalizing acc with
  | nil =>
    rw [List.foldl_nil, List.map_nil]
    exact (str_append_empty acc).symm
  | cons p rest ih =>
    rw [List.foldl_cons, ih, List.map_cons]
    simp only [strConcat, str_append_assoc]

theorem pdfFullText_eq (pages : List (List String)) :
    pdfFullText pages = strConcat (pages.map fun p => jsJoin " " p ++ "\n\n") := by
  unfold pdfFullText
  rw [pdfFold_acc, str_empty_append]

theorem strConcat_join_cons (s : String) (rest : List String) :
    strConcat ((s :: rest).map fun x => x ++ "\n\n")
      = jsJoin "\n\n" (s :: rest) ++ "\n\n" := by
  induction rest generalizing s with
  | nil =>
    show (s ++ "\n\n") ++ "" = s ++ "\n\n"
    exact str_append_empty _
  | cons y t ih =>
    show (s ++ "\n\n") ++ strConcat ((y :: t).map fun x => x ++ "\n\n")
      = (s ++ "\n\n" ++ jsJoin "\n\n" (y :: t)) ++ "\n\n"
    rw [ih y]
    simp only [str_append_assoc]

/-- The source's page loop plus final trim agrees with the claim's formula:
single-space joins per page, pages joined by one blank line, then trimmed. -/
theorem pdfLoop_trim_eq (pages : List (List String)) :
    jsTrim (pdfFullText pages)
      = jsTrim (jsJoin "\n\n" (pages.map (jsJoin " "))) := by
  cases pages with
  | nil => rfl
  | cons p rest =>
    rw [pdfFullText_eq]
    have h1 : (p :: rest).map (fun q => jsJoin " " q ++ "\n\n")
        = ((p :: rest).map (jsJoin " ")).map (fun s => s ++ "\n\n") := by
      rw [List.map_map]; rfl
    rw [h1, List.map_cons, strConcat_join_cons, jsTrim_append_nn]

/-! ## Concrete example inputs -/

/-- An OCR behaviour that succeeds plainly (for files whose OCR path is not
exercised, and for the image example). -/
def stubOcr : OcrSpec := ⟨.ok (), [], .ok ("x", 90), .ok ()⟩

def pdfFileEx : JsFile :=
  ⟨"application/pdf", .ok [["Hello", "World"], ["Foo"]], .ok "doc", stubOcr⟩

def docxFileEx : JsFile :=
  ⟨"application/vnd.openxmlformats-officedocument.wordprocessingml.document",
    .ok [], .ok "docx body", stubOcr⟩

def imageFileEx : JsFile :=
  ⟨"image/png", .ok [], .ok "doc", stubOcr⟩

def plainFileEx : JsFile :=
  ⟨"text/plain", .ok [], .ok "doc", stubOcr⟩

/-- A PDF whose underlying document fails to load. -/
def badPdfFileEx : JsFile :=
  ⟨"application/pdf", .error "Invalid PDF structure", .ok "doc", stubOcr⟩

/-- A valid PDF with zero pages. -/
def emptyPdfFileEx : JsFile :=
  ⟨"application/pdf", .ok [], .ok "doc", stubOcr⟩

/-- OCR whose engine creation (`createWorker`) itself rejects. -/
def createFailOcr : OcrSpec :=
  ⟨.error "network failure while loading core", [], .ok ("hi", 90), .ok ()⟩

/-- OCR that completes with whitespace-only text and no engine error. -/
def emptyTextOcr : OcrSpec := ⟨.ok (), [], .ok ("   ", 95), .ok ()⟩

/-- OCR that completes with text "hello" at confidence 42. -/
def lowConfOcr : OcrSpec := ⟨.ok (), [], .ok ("hello", 42), .ok ()⟩

/-! ## Shape of a successful OCR call -/

/-- A successful `extractTextFromImage` result is the trimmed recognized
text, hence itself trimmed and non-empty. -/
theorem image_ok_shape (spec : OcrSpec) (sink : Bool) (t : String)
    (h : (extractTextFromImage spec sink).1 = .ok t) :
    jsTrim t = t ∧ t.data.length ≠ 0 := by
  unfold extractTextFromImage at h
  cases hc : spec.create with
  | error e => rw [hc] at h; exact absurd h (by simp)
  | ok u =>
    rw [hc] at h
    dsimp only at h
    cases hr : spec.recognize with
    | error e => rw [hr] at h; exact absurd h (by simp)
    | ok pr =>
      obtain ⟨text, conf⟩ := pr
      rw [hr] at h
      dsimp only at h
      by_cases hz : (jsTrim text).data.length = 0
      · rw [if_pos hz] at h
        exact absurd h (by simp)
      · rw [if_neg hz] at h
        by_cases hcf : conf < 60
        · rw [if_pos hcf] at h
          dsimp only at h
          injection h with he
          subst he
          exact ⟨jsTrim_idem text, hz⟩
        · rw [if_neg hcf] at h
          dsimp only at h
          injection h with he
          subst he
          exact ⟨jsTrim_idem text, hz⟩

/-! ## Claim theorems -/

/-- C1: the dispatcher routes by declared media type: exactly "application/pdf"
invokes the PDF decoder and no other; exactly the DOCX media type invokes the
DOCX decoder alone; a type starting with "image/" invokes the OCR decoder
alone; any other type fails with the unsupported-type error (wrapped by the
dispatcher's catch) before any decoder is invoked. -/
theorem claim_C1_routing (f : JsFile) (sink : Bool) :
    (f.type = "application/pdf" →
      invokedList (extractTextFromFile f sink).2 = [.pdf])
    ∧ (f.type = "application/vnd.openxmlformats-officedocument.wordprocessingml.document" →
      invokedList (extractTextFromFile f sink).2 = [.docx])
    ∧ (jsStarts f.type "image/" = true →
      invokedList (extractTextFromFile f sink).2 = [.image])
    ∧ (f.type ≠ "application/pdf" →
      f.type ≠ "application/vnd.openxmlformats-officedocument.wordprocessingml.document" →
      jsStarts f.type "image/" = false →
      (extractTextFromFile f sink).1
          = .error "Failed to extract text: Unsupported file type"
        ∧ invokedList (extractTextFromFile f sink).2 = []) := by
  refine ⟨?_, ?_, ?_, ?_⟩
  · intro h
    unfold extractTextFromFile dispatchBody
    rw [if_pos h]
    cases f.pdfDoc <;> rfl
  · intro h
    have hne : f.type ≠ "application/pdf" := by
      rw [h]; decide
    unfold extractTextFromFile dispatchBody
    rw [if_neg hne, if_pos h]
    cases f.docxVal <;> rfl
  · intro h
    have h1 : f.type ≠ "application/pdf" := by
      intro he; rw [he] at h; exact absurd h (by decide)
    have h2 : f.type ≠ "application/vnd.openxmlformats-officedocument.wordprocessingml.document" := by
      intro he; rw [he] at h; exact absurd h (by decide)
    unfold extractTextFromFile dispatchBody
    rw [if_neg h1, if_neg h2, if_pos h]
    have h3 := invokedList_image f.ocr sink
    cases hi : extractTextFromImage f.ocr sink with
    | mk r evs =>
      rw [hi] at h3
      cases r <;> exact h3
  · intro h1 h2 h3
    unfold extractTextFromFile dispatchBody
    rw [if_neg h1, if_neg h2, if_neg (by rw [h3]; exact Bool.false_ne_true)]
    exact ⟨rfl, rfl⟩

/-- C2: the PDF decoder joins each page's text fragments with single spaces,
concatenates pages in ascending order separated by one blank line ("\n\n"),
and trims the final concatenation; on the 2-page example [["Hello","World"],
["Foo"]] it yields exactly "Hello World\n\nFoo". -/
theorem claim_C2_pdf_join :
    (∀ pages, (extractTextFromPDF (.ok pages)).1
        = .ok (jsTrim (jsJoin "\n\n" (pages.map (jsJoin " ")))))
    ∧ (extractTextFromPDF (.ok [["Hello", "World"], ["Foo"]])).1
        = .ok "Hello World\n\nFoo" := by
  constructor
  · intro pages
    show Except.ok (jsTrim (pdfFullText pages)) = _
    rw [pdfLoop_trim_eq]
  · rfl

/-- Witness for C1 at one concrete file per route. -/
theorem claim_C1_routing_witness :
    invokedList (extractTextFromFile pdfFileEx true).2 = [.pdf]
    ∧ invokedList (extractTextFromFile docxFileEx true).2 = [.docx]
    ∧ invokedList (extractTextFromFile imageFileEx true).2 = [.image]
    ∧ ((extractTextFromFile plainFileEx true).1
        = .error "Failed to extract text: Unsupported file type"
      ∧ invokedList (extractTextFromFile plainFileEx true).2 = []) :=
  ⟨(claim_C1_routing pdfFileEx true).1 rfl,
   (claim_C1_routing docxFileEx true).2.1 rfl,
   (claim_C1_routing imageFileEx true).2.2.1 (by decide),
   (claim_C1_routing plainFileEx true).2.2.2 (by decide) (by decide) (by decide)⟩

/-- C3: on the failing input (engine resolves with whitespace-only text at
confidence 95, reporting no internal error) `extractTextFromImage` rejects,
but the surfaced message is the clear-readable-text wording rather than the
blurry/low-quality/textless wording the code itself throws: the catch
block's `includes('recognize')` test matches "recognized" inside the thrown
message and replaces it.  The thrown message does contain "blurry"; the
surfaced one does not. -/
theorem claim_C3_empty_reject :
    (extractTextFromImage emptyTextOcr true).1 = .error recogFailMsg
    ∧ jsIncludes noTextMsg "blurry" = true
    ∧ jsIncludes recogFailMsg "blurry" = false
    ∧ jsIncludes noTextMsg "recognize" = true :=
  ⟨rfl, rfl, rfl, rfl⟩

/-- C4 (amended): whenever the recognition engine is successfully created,
`worker.terminate()` executes exactly once, whether the call resolves or
rejects; when `createWorker` itself fails, no engine was acquired and the
termination step does not execute. -/
theorem claim_C4_terminate (spec : OcrSpec) (sink : Bool) :
    (spec.create = .ok () → countTerm (extractTextFromImage spec sink).2 = 1)
    ∧ (∀ e, spec.create = .error e →
        countTerm (extractTextFromImage spec sink).2 = 0) := by
  constructor
  · intro h
    unfold extractTextFromImage
    rw [h]
    dsimp only
    cases spec.recognize with
    | error e => simp [countTerm, countTerm_append, countTerm_emitSingle]
    | ok pr =>
      obtain ⟨text, conf⟩ := pr
      dsimp only
      split_ifs <;> simp [countTerm, countTerm_append, countTerm_emitSingle]
  · intro e h
    unfold extractTextFromImage
    rw [h]
    rfl

/-- Witness for C4 at concrete inputs: a resolving call, a rejecting call
(empty text), and a failed engine creation. -/
theorem claim_C4_terminate_witness :
    countTerm (extractTextFromImage stubOcr true).2 = 1
    ∧ countTerm (extractTextFromImage emptyTextOcr false).2 = 1
    ∧ countTerm (extractTextFromImage createFailOcr true).2 = 0 :=
  ⟨(claim_C4_terminate stubOcr true).1 rfl,
   (claim_C4_terminate emptyTextOcr false).1 rfl,
   (claim_C4_terminate createFailOcr true).2
     "network failure while loading core" rfl⟩

/-- C4 counterexample to the claim as stated: when `createWorker` rejects,
the call rejects and the termination step runs zero times, not once. -/
theorem claim_C4_cex :
    (extractTextFromImage createFailOcr true).1
        = .error "OCR processing failed: network failure while loading core"
    ∧ countTerm (extractTextFromImage createFailOcr true).2 = 0 :=
  ⟨rfl, rfl⟩

/-- C5: any failure of the selected decoder (the dispatcher's try block) is
re-thrown as the uniform "Failed to extract text: " error retaining the
original failure message. -/
theorem claim_C5_wrap (f : JsFile) (sink : Bool) (e : String)
    (h : (dispatchBody f sink).1 = .error e) :
    (extractTextFromFile f sink).1
      = .error ("Failed to extract text: " ++ e) := by
  unfold extractTextFromFile
  cases hd : dispatchBody f sink with
  | mk r evs =>
    rw [hd] at h
    dsimp only at h
    cases r with
    | ok t => exact absurd h (by simp)
    | error e2 =>
      injection h with he
      subst he
      rfl

/-- Witness for C5: a PDF whose document fails to load surfaces the wrapped
original message. -/
theorem claim_C5_wrap_witness :
    (extractTextFromFile badPdfFileEx true).1
      = .error "Failed to extract text: Invalid PDF structure" :=
  claim_C5_wrap badPdfFileEx true "Invalid PDF structure" rfl

/-- C6 counterexample to the claim as stated: a valid zero-page PDF makes
the dispatcher resolve successfully with "", whose trimmed length is 0. -/
theorem claim_C6_cex :
    (extractTextFromFile emptyPdfFileEx true).1 = .ok ""
    ∧ (jsTrim "").data.length = 0 :=
  ⟨rfl, rfl⟩

/-- C6 (amended): on the OCR path every text the dispatcher returns
successfully is non-empty after trimming (and already trimmed); the PDF and
DOCX paths may return empty text. -/
theorem claim_C6_image_nonempty (f : JsFile) (sink : Bool) (t : String)
    (h1 : jsStarts f.type "image/" = true)
    (h2 : (extractTextFromFile f sink).1 = .ok t) :
    (jsTrim t).data.length ≠ 0 := by
  have h3 : f.type ≠ "application/pdf" := by
    intro he; rw [he] at h1; exact absurd h1 (by decide)
  have h4 : f.type ≠ "application/vnd.openxmlformats-officedocument.wordprocessingml.document" := by
    intro he; rw [he] at h1; exact absurd h1 (by decide)
  have h5 : (extractTextFromImage f.ocr sink).1 = .ok t := by
    unfold extractTextFromFile dispatchBody at h2
    rw [if_neg h3, if_neg h4, if_pos h1] at h2
    cases hi : extractTextFromImage f.ocr sink with
    | mk r evs =>
      rw [hi] at h2
      cases r with
      | ok t2 =>
        dsimp only at h2
        injection h2 with he
        rw [he]
      | error e =>
        dsimp only at h2
        exact absurd h2 (by simp)
  obtain ⟨hteq, hlen⟩ := image_ok_shape f.ocr sink t h5
  rw [hteq]
  exact hlen

/-- Witness for C6 (amended) at a concrete image upload. -/
theorem claim_C6_image_nonempty_witness : (jsTrim "x").data.length ≠ 0 :=
  claim_C6_image_nonempty imageFileEx true "x" (by decide) rfl

/-- C7: a recognition outcome with non-empty text and confidence below 60
resolves successfully with the trimmed text; the low confidence only emits
the log-level advisory, never a failure. -/
theorem claim_C7_low_confidence (spec : OcrSpec) (text : String) (conf : Int)
    (h1 : spec.create = .ok ())
    (h2 : spec.recognize = .ok (text, conf))
    (h3 : (jsTrim text).data.length ≠ 0)
    (h4 : conf < 60) :
    (extractTextFromImage spec true).1 = .ok (jsTrim text)
    ∧ Event.warnLowConfidence ∈ (extractTextFromImage spec true).2 := by
  unfold extractTextFromImage
  rw [h1]
  dsimp only
  rw [h2]
  dsimp only
  rw [if_neg h3, if_pos h4]
  exact ⟨rfl, by simp⟩

/-- Witness for C7 at the spec's example outcome {text: "hello",
confidence: 42}. -/
theorem claim_C7_low_confidence_witness :
    (extractTextFromImage lowConfOcr true).1 = .ok "hello"
    ∧ Event.warnLowConfidence ∈ (extractTextFromImage lowConfOcr true).2 := by
  have h := claim_C7_low_confidence lowConfOcr "hello" 42 rfl rfl
    (by decide) (by decide)
  exact ⟨by rw [h.1]; rfl, h.2⟩

/-- C9: successfully returned OCR text and PDF text carry no leading or
trailing whitespace: re-trimming either result is a no-op. -/
theorem claim_C9_trim_idem :
    (∀ spec sink t, (extractTextFromImage spec sink).1 = .ok t →
      jsTrim t = t)
    ∧ (∀ doc t, (extractTextFromPDF doc).1 = .ok t → jsTrim t = t) := by
  constructor
  · intro spec sink t h
    exact (image_ok_shape spec sink t h).1
  · intro doc t h
    cases doc with
    | error e => exact absurd h (by simp [extractTextFromPDF])
    | ok pages =>
      dsimp only [extractTextFromPDF] at h
      injection h with he
      rw [← he, jsTrim_idem]

/-- Witness for C9 at concrete OCR and PDF calls. -/
theorem claim_C9_trim_idem_witness :
    jsTrim "x" = "x" ∧ jsTrim "Hello World\n\nFoo" = "Hello World\n\nFoo" :=
  ⟨claim_C9_trim_idem.1 stubOcr true "x" rfl,
   claim_C9_trim_idem.2 (.ok [["Hello", "World"], ["Foo"]])
     "Hello World\n\nFoo" rfl⟩

/-! ## Progress-forwarding lemmas for C8 -/

/-- The four stage names the single-language logger forwards. -/
def fourStages : List String :=
  ["loading tesseract core", "initializing tesseract",
   "loading language traineddata", "recognizing text"]

theorem fwdStatuses_fwdSingle (m : ProgressMsg) :
    fwdStatuses (fwdSingle true m)
      = if m.status ∈ fourStages then [m.status] else [] := by
  unfold fwdSingle
  by_cases h1 : m.status = "recognizing text" <;>
  by_cases h2 : m.status = "loading tesseract core" <;>
  by_cases h3 : m.status = "initializing tesseract" <;>
  by_cases h4 : m.status = "loading language traineddata" <;>
    simp_all [fourStages, fwdStatuses]

theorem fwdStatuses_emitSingle (msgs : List ProgressMsg) :
    fwdStatuses (emitAll (fwdSingle true) msgs)
      = ((msgs.filter fun m => m.status ∈ fourStages).map ProgressMsg.status) := by
  induction msgs with
  | nil => rfl
  | cons m rest ih =>
    rw [emitAll, fwdStatuses_append, fwdStatuses_fwdSingle, ih,
      List.filter_cons]
    by_cases h : m.status ∈ fourStages
    · simp [h]
    · simp [h]

theorem fwdStatuses_fwdMulti (m : ProgressMsg) :
    fwdStatuses (fwdMulti true m) = [m.status] := rfl

theorem fwdStatuses_emitMulti (msgs : List ProgressMsg) :
    fwdStatuses (emitAll (fwdMulti true) msgs)
      = msgs.map ProgressMsg.status := by
  induction msgs with
  | nil => rfl
  | cons m rest ih =>
    rw [emitAll, fwdStatuses_append, fwdStatuses_fwdMulti, ih, List.map_cons]
    rfl

/-- C8: with a caller-supplied sink, the single-language decoder forwards
exactly the progress events whose stage is one of the four enumerated
stages (in order), ignoring all other stage names, while the multi-language
variant forwards every progress event regardless of stage name. -/
theorem claim_C8_progress (spec : OcrSpec) (langs : List String)
    (h : spec.create = .ok ()) :
    fwdStatuses (extractTextFromImage spec true).2
      = ((spec.messages.filter fun m => m.status ∈ fourStages).map
          ProgressMsg.status)
    ∧ fwdStatuses (extractTextFromImageMultiLang langs spec true).2
      = spec.messages.map ProgressMsg.status := by
  constructor
  · unfold extractTextFromImage
    rw [h]
    dsimp only
    cases spec.recognize with
    | error e => simp [fwdStatuses, fwdStatuses_append, fwdStatuses_emitSingle]
    | ok pr =>
      obtain ⟨text, conf⟩ := pr
      dsimp only
      split_ifs <;>
        simp [fwdStatuses, fwdStatuses_append, fwdStatuses_emitSingle]
  · unfold extractTextFromImageMultiLang
    rw [h]
    dsimp only
    cases spec.recognize with
    | error e => simp [fwdStatuses, fwdStatuses_append, fwdStatuses_emitMulti]
    | ok pr =>
      obtain ⟨text, conf⟩ := pr
      dsimp only
      split_ifs <;>
        simp [fwdStatuses, fwdStatuses_append, fwdStatuses_emitMulti]

/-- OCR behaviour emitting one enumerated-stage event and one
foreign-stage event. -/
def msgOcr : OcrSpec :=
  ⟨.ok (), [⟨"recognizing text", some 1⟩, ⟨"internal bookkeeping", none⟩],
    .ok ("Invoice", 88), .ok ()⟩

/-- Witness for C8: the single-language call forwards only the enumerated
stage; the multi-language call forwards both. -/
theorem claim_C8_progress_witness :
    fwdStatuses (extractTextFromImage msgOcr true).2 = ["recognizing text"]
    ∧ fwdStatuses (extractTextFromImageMultiLang ["eng", "fra"] msgOcr true).2
      = ["recognizing text", "internal bookkeeping"] := by
  have h := claim_C8_progress msgOcr ["eng", "fra"] rfl
  exact ⟨h.1.trans (by rfl), h.2.trans (by rfl)⟩

/-! ## Whitespace-only PDF output lemmas for C10 -/

theorem mem_strConcat {c : Char} :
    ∀ {l : List String}, c ∈ (strConcat l).data → ∃ s ∈ l, c ∈ s.data := by
  intro l
  induction l with
  | nil => intro hc; exact absurd hc (by simp [strConcat])
  | cons s rest ih =>
    intro hc
    rw [show strConcat (s :: rest) = s ++ strConcat rest from rfl,
      String.data_append, List.mem_append] at hc
    rcases hc with hc | hc
    · exact ⟨s, List.mem_cons_self _ _, hc⟩
    · obtain ⟨s2, hs2, hcs⟩ := ih hc
      exact ⟨s2, List.mem_cons_of_mem _ hs2, hcs⟩

/-- If every page contributes no fragments, the page loop's output is all
whitespace. -/
theorem pdfFullText_ws (pages : List (List String))
    (h : ∀ p ∈ pages, p = []) :
    ∀ c ∈ (pdfFullText pages).data, isWsC c = true := by
  intro c hc
  rw [pdfFullText_eq] at hc
  obtain ⟨s, hs, hcs⟩ := mem_strConcat hc
  obtain ⟨p, hp, hsp⟩ := List.mem_map.mp hs
  rw [← hsp, h p hp] at hcs
  have hd : (jsJoin " " [] ++ "\n\n").data = ['\n', '\n'] := rfl
  rw [hd] at hcs
  simp only [List.mem_cons, List.not_mem_nil, or_false, or_self] at hcs
  rw [hcs]
  decide

/-- C10: a PDF whose document has zero pages, or all of whose pages
contribute no fragments, resolves successfully through the dispatcher with
the empty string; likewise an empty DOCX body is returned verbatim as ""
without error: the non-empty-text validation lives only on the OCR path. -/
theorem claim_C10_empty_ok :
    (∀ (f : JsFile) (sink : Bool) (pages : List (List String)),
      f.type = "application/pdf" → f.pdfDoc = .ok pages →
      (∀ p ∈ pages, p = []) → (extractTextFromFile f sink).1 = .ok "")
    ∧ (∀ (f : JsFile) (sink : Bool),
      f.type = "application/vnd.openxmlformats-officedocument.wordprocessingml.document" →
      f.docxVal = .ok "" → (extractTextFromFile f sink).1 = .ok "") := by
  constructor
  · intro f sink pages h1 h2 h3
    unfold extractTextFromFile dispatchBody extractTextFromPDF
    rw [if_pos h1, h2]
    dsimp only
    rw [show jsTrim (pdfFullText pages) = "" from
      congrArg String.mk (trimCs_all_ws (pdfFullText_ws pages h3))]
  · intro f sink h1 h2
    have hne : f.type ≠ "application/pdf" := by
      rw [h1]; decide
    unfold extractTextFromFile dispatchBody extractTextFromDOCX
    rw [if_neg hne, if_pos h1, h2]

/-- Witness for C10: a 2-page PDF whose pages carry no fragments, and a
DOCX with empty body. -/
theorem claim_C10_empty_ok_witness :
    (extractTextFromFile
      ⟨"application/pdf", .ok [[], []], .ok "doc", stubOcr⟩ true).1 = .ok ""
    ∧ (extractTextFromFile
      ⟨"application/vnd.openxmlformats-officedocument.wordprocessingml.document",
        .ok [], .ok "", stubOcr⟩ true).1 = .ok "" :=
  ⟨claim_C10_empty_ok.1
      ⟨"application/pdf", .ok [[], []], .ok "doc", stubOcr⟩ true [[], []]
      rfl rfl (by decide),
   claim_C10_empty_ok.2
      ⟨"application/vnd.openxmlformats-officedocument.wordprocessingml.document",
        .ok [], .ok "", stubOcr⟩ true rfl rfl⟩

end DocConverter
